import Mathlib

/-!
# Verification of the Azure/OpenAI Responses API client core

Shallow embedding of the retry engine, rate-limit coordinator, circuit
breaker, Azure detection, URL builders, error classifier and payload
patcher of the `codex-rs` repository, together with proofs of the
specification claims.

Modelling conventions:
* `f64` quantities (bucket levels, rates, durations) are modelled as `ℚ`.
  All claim-relevant computations (integer-valued subtraction, `min`,
  `max`, division by 60) are exact at the inputs the claims mention.
* Wall-clock instants are explicit `ℚ` parameters; a call that the code
  performs at a single `Instant::now()` is evaluated at one instant.
* HTTP header maps are association lists from header names to values; a
  value is either a UTF-8 string or an opaque non-UTF-8 byte sequence
  (for which `to_str()` fails).
* JSON documents are an inductive `Json` type; `serde_json` parsing of a
  body string is embedded at the level of already-parsed values.
* String computations are carried out on the underlying character lists
  so that every definition evaluates by kernel reduction.
-/

set_option autoImplicit false

namespace Codex

/-- ASCII-lowercase a single character (`u8::to_ascii_lowercase`). -/
def asciiLowerChar (c : Char) : Char :=
  if 'A' ≤ c ∧ c ≤ 'Z' then Char.ofNat (c.toNat + 32) else c

/-- ASCII-lowercase a string (`str::to_ascii_lowercase`). -/
def asciiLower (s : String) : String :=
  ⟨s.data.map asciiLowerChar⟩

/-- Whether `pat` occurs as a contiguous infix of `l`. -/
def containsChars (pat : List Char) : List Char → Bool
  | [] => pat.isEmpty
  | c :: rest => pat.isPrefixOf (c :: rest) || containsChars pat rest

/-- `str::contains(pat)` — substring containment. -/
def strContains (s pat : String) : Bool :=
  containsChars pat.data s.data

/-- `str::starts_with(pat)`. -/
def strStartsWith (s pat : String) : Bool :=
  pat.data.isPrefixOf s.data

/-- `str::ends_with(pat)`. -/
def strEndsWith (s pat : String) : Bool :=
  pat.data.reverse.isPrefixOf s.data.reverse

/-- Value of a nonempty all-digit character list, read in base 10. -/
def digitsVal (l : List Char) : Nat :=
  l.foldl (fun n c => n * 10 + (c.toNat - '0'.toNat)) 0

/-- Decimal digits interpreted as a natural number, provided the list is
nonempty and consists of digits only. -/
def digitsToNat? (l : List Char) : Option Nat :=
  if l ≠ [] ∧ l.all Char.isDigit then some (digitsVal l) else none

/-- `str::parse::<u64>()` on a character list: optional leading `+`, then
decimal digits, value below `2^64`. -/
def parseU64Chars (l : List Char) : Option Nat :=
  let t := match l with
    | '+' :: rest => rest
    | _ => l
  match digitsToNat? t with
  | some n => if n < 2 ^ 64 then some n else none
  | none => none

/-- `str::parse::<u64>()`. -/
def parseU64 (s : String) : Option Nat := parseU64Chars s.data

/-- `str::parse::<u32>()`: optional leading `+`, then decimal digits,
value below `2^32`. -/
def parseU32 (s : String) : Option Nat :=
  let t := match s.data with
    | '+' :: rest => rest
    | _ => s.data
  match digitsToNat? t with
  | some n => if n < 2 ^ 32 then some n else none
  | none => none

/-- The value denoted by a parsed `f64` literal: a finite number (modelled
exactly as a rational), a NaN, or a signed infinity. -/
inductive FVal where
  | num (q : ℚ)
  | nan
  | posInf
  | negInf
  deriving DecidableEq, Repr

/-- Split a character list at the first occurrence of `sep`; `none` when
`sep` does not occur. -/
def splitOnceChar (sep : Char) : List Char → Option (List Char × List Char)
  | [] => none
  | c :: rest =>
    if c = sep then some ([], rest)
    else
      match splitOnceChar sep rest with
      | some (a, b) => some (c :: a, b)
      | none => none

/-- `str::parse::<f64>()`, restricted to the forms the client ever meets:
an optional sign followed by `inf`/`infinity`/`nan` (case-insensitive) or
a plain decimal `digits[.digits]` / `.digits` / `digits.` literal.  Finite
values are modelled as exact rationals; exponent forms are outside the
scope of the claims and left unparsed. -/
def parseF64 (s : String) : Option FVal :=
  let (neg, t) :=
    match s.data with
    | '-' :: rest => (true, rest)
    | '+' :: rest => (false, rest)
    | l => (false, l)
  let low := t.map asciiLowerChar
  if low = "inf".data ∨ low = "infinity".data then
    some (if neg then .negInf else .posInf)
  else if low = "nan".data then some .nan
  else
    match splitOnceChar '.' t with
    | none =>
      match digitsToNat? t with
      | some n => some (.num (if neg then -(n : ℚ) else (n : ℚ)))
      | none => none
    | some (intPart, fracPart) =>
      if intPart = [] ∧ fracPart = [] then none
      else if intPart.all Char.isDigit ∧ fracPart.all Char.isDigit ∧
              ¬fracPart.any (· = '.') then
        let q : ℚ :=
          (digitsVal intPart : ℚ) + (digitsVal fracPart : ℚ) / (10 : ℚ) ^ fracPart.length
        some (.num (if neg then -q else q))
      else none

/-- A header value: either valid UTF-8 (so `HeaderValue::to_str` succeeds)
or opaque non-UTF-8 bytes (so `to_str` fails). -/
inductive HVal where
  | utf8 (s : String)
  | bin
  deriving DecidableEq, Repr

/-- A header map, as an association list keyed by (lower-case) header name.
`HeaderMap::get` returns the first value for the name. -/
def Headers := List (String × HVal)

/-- `HeaderMap::get(name)` — first entry with the given name. -/
def Headers.get (h : Headers) (name : String) : Option HVal :=
  match h with
  | [] => none
  | (k, v) :: rest => if k = name then some v else Headers.get rest name

/-- `HeaderValue::to_str()`: succeeds exactly on UTF-8 values. -/
def HVal.toStr : HVal → Option String
  | .utf8 s => some s
  | .bin => none

/-- Durations are modelled as rational numbers of seconds. -/
abbrev Dur := ℚ

/-- `Duration::from_millis`. -/
def durFromMillis (ms : Nat) : Dur := (ms : ℚ) / 1000

/-- `Duration::from_secs`. -/
def durFromSecs (s : Nat) : Dur := (s : ℚ)

/-- Value of a `retry-after` header string: integer seconds first, else a
finite non-negative float (guarding the negative/NaN/infinite values that
would panic `Duration::from_secs_f64`). -/
def retryAfterSecsVal (s : String) : Option Dur :=
  match parseU64 s with
  | some secs => some (durFromSecs secs)
  | none =>
    match parseF64 s with
    | some (.num q) => if 0 ≤ q then some q else none
    | _ => none

/-- The `retry-after` (seconds) leg of `parse_retry_after_headers`. -/
def parseRetryAfterSecs (headers : Headers) : Option Dur :=
  match headers.get "retry-after" with
  | some v =>
    match v.toStr with
    | some s => retryAfterSecsVal s
    | none => none
  | none => none

/-- The `x-ms-retry-after-ms` leg of `parse_retry_after_headers`, falling
through to the `retry-after` leg. -/
def parseRetryAfterXms (headers : Headers) : Option Dur :=
  match headers.get "x-ms-retry-after-ms" with
  | some v =>
    match v.toStr with
    | some s =>
      match parseU64 s with
      | some ms => some (durFromMillis ms)
      | none => parseRetryAfterSecs headers
    | none => parseRetryAfterSecs headers
  | none => parseRetryAfterSecs headers

/-- `parse_retry_after_headers` (codex-client/src/retry.rs): Azure SDK
precedence `retry-after-ms` (ms), then `x-ms-retry-after-ms` (ms), then
`retry-after` (integer seconds, else finite non-negative float seconds).
Each `if let` chain of the source falls through to the next header when
the header is absent, non-UTF-8, or unparsable. -/
def parseRetryAfterHeaders (headers : Headers) : Option Dur :=
  match headers.get "retry-after-ms" with
  | some v =>
    match v.toStr with
    | some s =>
      match parseU64 s with
      | some ms => some (durFromMillis ms)
      | none => parseRetryAfterXms headers
    | none => parseRetryAfterXms headers
  | none => parseRetryAfterXms headers

/-! ## JSON values

`serde_json::Value`, with objects as association lists of key/value
pairs.  A body string that parses as JSON is embedded as the parsed
value; numbers are modelled as exact rationals. -/

inductive Json where
  | null
  | bool (b : Bool)
  | num (q : ℚ)
  | str (s : String)
  | arr (elems : List Json)
  | obj (fields : List (String × Json))

/-- First field with the given key in a JSON object's field list
(`serde_json::Map::get`). -/
def jsonGetField (fields : List (String × Json)) (key : String) : Option Json :=
  match fields with
  | [] => none
  | (k, v) :: rest => if k = key then some v else jsonGetField rest key

/-- `Value::get(key)` on an object, `None` otherwise. -/
def Json.get (j : Json) (key : String) : Option Json :=
  match j with
  | .obj fields => jsonGetField fields key
  | _ => none

/-! ## Transport errors and the retry engine (codex-client/src/retry.rs)

`TransportError::Http` carries the response status, URL, headers and
body; the body is embedded at parsed-JSON level (`none` also stands for
a body that is absent or fails to parse as JSON — both behave
identically everywhere the body is inspected).  The `other` constructor
stands for the remaining `TransportError` variants, all of which fall
into the `_ => false` arm of `should_retry`. -/

inductive TransportError where
  | Http (status : Nat) (url : String) (headers : Option Headers) (body : Option Json)
  | Timeout
  | Network (msg : String)
  | RetryLimit
  | other (msg : String)

/-- `StatusCode::is_server_error` — 500..=599. -/
def isServerError (status : Nat) : Bool :=
  500 ≤ status ∧ status ≤ 599

/-- Discriminator for the `RetryLimit` variant. -/
def TransportError.isRetryLimit : TransportError → Bool
  | .RetryLimit => true
  | _ => false

/-- `RetryOn`: which error conditions trigger a retry attempt. -/
structure RetryOn where
  retry429 : Bool
  retry5xx : Bool
  retryTransport : Bool
  deriving DecidableEq, Repr

/-- `RetryOn::should_retry`: false once `attempt >= max_attempts`,
otherwise keyed on the error variant. -/
def RetryOn.shouldRetry (r : RetryOn) (err : TransportError) (attempt maxAttempts : Nat) : Bool :=
  if attempt ≥ maxAttempts then
    false
  else
    match err with
    | .Http status _ _ _ =>
      (r.retry429 ∧ status = 429) ∨ (r.retry5xx ∧ isServerError status)
    | .Timeout => r.retryTransport
    | .Network _ => r.retryTransport
    | _ => false

/-- `RetryPolicy` (delays are irrelevant to the return value of the
retry loop and are not tracked by this model). -/
structure RetryPolicy where
  maxAttempts : Nat
  retryOn : RetryOn
  deriving DecidableEq, Repr

/-- The body of `run_with_retry`'s `for attempt in 0..=max_attempts`
loop.  `remaining` counts the iterations the range still yields and
`attempt` is the current index; the operation of an attempt is a
function from the attempt index to its outcome.  Falling out of the loop
produces `TransportError::RetryLimit`; succeeding returns the value;
failing with a non-retryable verdict returns the error. -/
def runWithRetryGo {T : Type} (policy : RetryPolicy) (op : Nat → Except TransportError T) :
    Nat → Nat → Except TransportError T
  | 0, _ => .error .RetryLimit
  | remaining + 1, attempt =>
    match op attempt with
    | .ok v => .ok v
    | .error err =>
      if policy.retryOn.shouldRetry err attempt policy.maxAttempts then
        runWithRetryGo policy op remaining (attempt + 1)
      else
        .error err

/-- `run_with_retry` (codex-client/src/retry.rs): run the operation for
attempts `0..=max_attempts` (that is, `max_attempts + 1` loop
iterations), retrying on retryable failures. -/
def runWithRetry {T : Type} (policy : RetryPolicy) (op : Nat → Except TransportError T) :
    Except TransportError T :=
  runWithRetryGo policy op (policy.maxAttempts + 1) 0

/-! ## Error taxonomy and classifier (codex-api/src/error.rs) -/

/-- `ApiError`, the error sum type of the API layer. -/
inductive ApiError where
  | Transport (e : TransportError)
  | Api (status : Nat) (message : String)
  | Stream (message : String)
  | ContextWindowExceeded
  | QuotaExceeded
  | UsageNotIncluded
  | PreviousResponseChainBroken (message : String)
  | Retryable (message : String) (delay : Option Dur)
  | RateLimit (message : String)
  | InvalidRequest (message : String)

/-- Deserialize an `Option<String>` struct field from a JSON object's
fields: missing or `null` gives `some none`; a string gives its value;
any other shape is a deserialization error (`none`). -/
def optStrField (fields : List (String × Json)) (key : String) : Option (Option String) :=
  match jsonGetField fields key with
  | none => some none
  | some .null => some none
  | some (.str s) => some (some s)
  | some _ => none

/-- The chain-break test of `ApiError::from_bad_request_body`, on the
`param` value and the ASCII-lowercased message. -/
def chainBreakCond (param msgLower : String) : Bool :=
  param = "previous_response_id"
  ∨ (strContains msgLower "previous" ∧ strContains msgLower "not found")
  ∨ (strStartsWith param "input" ∧ strContains msgLower "not found")
  ∨ (param = "input" ∧ strContains msgLower "duplicate item")
  ∨ (param = "input" ∧ strContains msgLower "no tool output found")
  ∨ (param = "input" ∧ strContains msgLower "output is missing")

/-- `ApiError::from_bad_request_body` (codex-api/src/error.rs), embedded
on the parsed JSON body.  Mirrors serde deserialization of
`ErrorEnvelope { error: Option<ErrorDetail> }` with
`ErrorDetail { type, param, message : Option<String> }`: any
deserialization failure, a missing/null `error`, or a `type` other than
`invalid_request_error` yields `none`, as does a non-matching
param/message pair. -/
def fromBadRequestBody (body : Json) : Option ApiError :=
  match body with
  | .obj fields =>
    match jsonGetField fields "error" with
    | none => none
    | some .null => none
    | some (.obj efields) =>
      match optStrField efields "type", optStrField efields "param",
            optStrField efields "message" with
      | some ty, some pa, some me =>
        if ty ≠ some "invalid_request_error" then none
        else
          let msg := me.getD ""
          let msgLower := asciiLower msg
          let param := pa.getD ""
          if chainBreakCond param msgLower then
            some (.PreviousResponseChainBroken (me.getD ""))
          else none
      | _, _, _ => none
    | some _ => none
  | _ => none

/-- `impl From<TransportError> for ApiError` (codex-api/src/error.rs):
HTTP 400 bodies are classified and possibly promoted to
`PreviousResponseChainBroken`; everything else is wrapped as
`ApiError::Transport`. -/
def apiErrorFromTransport (err : TransportError) : ApiError :=
  match err with
  | .Http status url headers body =>
    if status = 400 then
      match body with
      | some b =>
        match fromBadRequestBody b with
        | some chainError => chainError
        | none => .Transport (.Http status url headers body)
      | none => .Transport (.Http status url headers body)
    else .Transport (.Http status url headers body)
  | e => .Transport e

/-! ## Payload patcher (codex-api/src/azure.rs)

`ResponseItem` lives in the external `codex-protocol` crate; its shape
is pinned here by the variants `extract_item_id` matches on, with
`otherItem` standing for every variant without an ID. -/

inductive ResponseItem where
  | Reasoning (id : String)
  | Message (id : Option String)
  | WebSearchCall (id : Option String)
  | FunctionCall (id : Option String)
  | LocalShellCall (id : Option String)
  | CustomToolCall (id : Option String)
  | otherItem

/-- `extract_item_id` (codex-api/src/azure.rs): the ID of a
`ResponseItem` when present — `Reasoning` always carries one, the call
and message variants optionally. -/
def extractItemId : ResponseItem → Option String
  | .Reasoning id => some id
  | .Message (some id) => some id
  | .WebSearchCall (some id) => some id
  | .FunctionCall (some id) => some id
  | .LocalShellCall (some id) => some id
  | .CustomToolCall (some id) => some id
  | _ => none

/-- `serde_json::Map::insert`: replace the value at the key when present,
otherwise add the entry. -/
def objInsert (fields : List (String × Json)) (key : String) (v : Json) :
    List (String × Json) :=
  match fields with
  | [] => [(key, v)]
  | (k, w) :: rest =>
    if k = key then (k, v) :: rest else (k, w) :: objInsert rest key v

/-- One step of the patch loop: insert the item's ID into the serialized
value when the item carries a non-empty ID and the value is an object. -/
def patchItem (value : Json) (item : ResponseItem) : Json :=
  match extractItemId item with
  | some id =>
    if id ≠ "" then
      match value with
      | .obj fs => .obj (objInsert fs "id" (.str id))
      | v => v
    else value
  | none => value

/-- `attach_item_ids_to_json` (codex-api/src/azure.rs): patch the
`input` array of a serialized payload with the IDs of the positionally
aligned original items.  A missing `input` key (also on a non-object
payload) or a non-array `input` value returns the payload unchanged; a
length mismatch between the array and the original items panics, which
the model renders as `Except.error`. -/
def attachItemIdsToJson (payload : Json) (originalItems : List ResponseItem) :
    Except String Json :=
  match payload with
  | .obj fields =>
    match jsonGetField fields "input" with
    | some (.arr items) =>
      if items.length ≠ originalItems.length then
        .error "attach_item_ids_to_json: length mismatch"
      else
        .ok (.obj (objInsert fields "input"
          (.arr (List.zipWith patchItem items originalItems))))
    | some _ => .ok payload
    | none => .ok payload
  | _ => .ok payload

/-! ## Generic string-keyed association maps

`HashMap<String, _>` is modelled as an association list; lookups are by
key, inserts replace the existing entry or append a new one (iteration
order is never observed by the embedded operations). -/

/-- `HashMap::get`. -/
def lookupA {α : Type} (m : List (String × α)) (k : String) : Option α :=
  match m with
  | [] => none
  | (k', v) :: rest => if k' = k then some v else lookupA rest k

/-- `HashMap::insert`. -/
def insertA {α : Type} (m : List (String × α)) (k : String) (v : α) :
    List (String × α) :=
  match m with
  | [] => [(k, v)]
  | (k', w) :: rest =>
    if k' = k then (k', v) :: rest else (k', w) :: insertA rest k v

/-- `HashMap::contains_key`. -/
def containsA {α : Type} (m : List (String × α)) (k : String) : Bool :=
  (lookupA m k).isSome

/-! ## Token bucket (core/src/rate_limiter.rs)

`f64` token counts are rationals and `Instant`s are rational numbers of
seconds.  Rust `TokenBucket` clones share their interior state through
`Arc<Mutex<_>>`, so the model always operates on the bucket stored in
the coordinator's map. -/

structure TokenBucket where
  capacity : ℚ
  tokens : ℚ
  refillRate : ℚ
  lastRefill : ℚ
  deriving DecidableEq, Repr

/-- `TokenBucket::new`: starts full, with `last_refill = Instant::now()`. -/
def TokenBucket.new (capacity refillRate : ℚ) (now : ℚ) : TokenBucket :=
  { capacity := capacity, tokens := capacity, refillRate := refillRate, lastRefill := now }

/-- `TokenBucket::refill`: add `elapsed · refill_rate`, capped at
capacity; the level is only written when it increases. -/
def TokenBucket.refill (b : TokenBucket) (now : ℚ) : TokenBucket :=
  let elapsed := now - b.lastRefill
  let newTokens := min (b.tokens + elapsed * b.refillRate) b.capacity
  { b with tokens := if b.tokens < newTokens then newTokens else b.tokens,
           lastRefill := now }

/-- `TokenBucket::available_tokens`: refill, then read (the refill
mutates the shared bucket, so the updated bucket is returned too). -/
def TokenBucket.availableTokens (b : TokenBucket) (now : ℚ) : ℚ × TokenBucket :=
  let b := b.refill now
  (b.tokens, b)

/-- `TokenBucket::refund`: add tokens immediately, clamped to capacity;
non-positive amounts are ignored. -/
def TokenBucket.refund (b : TokenBucket) (n : ℚ) : TokenBucket :=
  if n ≤ 0 then b else { b with tokens := min (b.tokens + n) b.capacity }

/-- `TokenBucket::force_debit`: subtract tokens immediately, floored at
zero; non-positive amounts are ignored. -/
def TokenBucket.forceDebit (b : TokenBucket) (n : ℚ) : TokenBucket :=
  if n ≤ 0 then b else { b with tokens := max (b.tokens - n) 0 }

/-- Observable suspension points of an `acquire` call. -/
inductive AcqEvent where
  | paceSleep (d : ℚ)
  | bucketSleep (d : ℚ)
  deriving DecidableEq, Repr

/-- The loop of `TokenBucket::acquire`, evaluated at a single instant
(sleeps are recorded as events and do not advance the model clock).
`remaining` counts the sleeps still permitted before the `MAX_ATTEMPTS`
guard fails the call. -/
def TokenBucket.acquireAux (n now : ℚ) :
    TokenBucket → Nat → Except String Unit × TokenBucket × List AcqEvent :=
  fun b remaining =>
    let b := b.refill now
    if n ≤ b.tokens then (.ok (), { b with tokens := b.tokens - n }, [])
    else
      let wait := (n - b.tokens) / b.refillRate
      match remaining with
      | 0 => (.error "Max attempts reached waiting for tokens", b, [])
      | r + 1 =>
        let (res, b', evs) := TokenBucket.acquireAux n now b r
        (res, b', .bucketSleep wait :: evs)

/-- `TokenBucket::acquire` with its `MAX_ATTEMPTS = 100` bound. -/
def TokenBucket.acquire (b : TokenBucket) (n now : ℚ) :
    Except String Unit × TokenBucket × List AcqEvent :=
  TokenBucket.acquireAux n now b 100

/-! ## Circuit breaker (core/src/rate_limiter.rs) -/

inductive CircuitState where
  | Closed
  | Open (openUntil : ℚ)
  | HalfOpen
  deriving DecidableEq, Repr

structure CircuitBreaker where
  state : CircuitState
  failureCount : Nat
  successCount : Nat
  failureThreshold : Nat
  successThreshold : Nat
  timeout : ℚ
  deriving DecidableEq, Repr

/-- `CircuitBreaker::new`: starts Closed with zeroed counters. -/
def CircuitBreaker.new (failureThreshold successThreshold : Nat) (timeout : ℚ) :
    CircuitBreaker :=
  { state := .Closed, failureCount := 0, successCount := 0,
    failureThreshold := failureThreshold, successThreshold := successThreshold,
    timeout := timeout }

/-- `CircuitBreaker::is_allowed`: true in Closed and HalfOpen; in Open,
false before `until`, and at or after `until` the state flips to
HalfOpen (resetting `success_count`) and the call returns true. -/
def CircuitBreaker.isAllowed (cb : CircuitBreaker) (now : ℚ) : Bool × CircuitBreaker :=
  match cb.state with
  | .Closed => (true, cb)
  | .Open u =>
    if u ≤ now then (true, { cb with state := .HalfOpen, successCount := 0 })
    else (false, cb)
  | .HalfOpen => (true, cb)

/-- `CircuitBreaker::record_success`: in HalfOpen, count successes and
close (resetting `failure_count`) at the success threshold; in Closed,
reset `failure_count`; in Open, do nothing. -/
def CircuitBreaker.recordSuccess (cb : CircuitBreaker) : CircuitBreaker :=
  match cb.state with
  | .HalfOpen =>
    let sc := cb.successCount + 1
    if cb.successThreshold ≤ sc then
      { cb with state := .Closed, successCount := sc, failureCount := 0 }
    else { cb with successCount := sc }
  | .Closed => { cb with failureCount := 0 }
  | _ => cb

/-- `CircuitBreaker::record_failure`: in Closed, count failures and open
(with `until = now + timeout`) at the failure threshold; in HalfOpen,
reopen and reset `success_count`; in Open, do nothing. -/
def CircuitBreaker.recordFailure (cb : CircuitBreaker) (now : ℚ) : CircuitBreaker :=
  match cb.state with
  | .Closed =>
    let fc := cb.failureCount + 1
    if cb.failureThreshold ≤ fc then
      { cb with failureCount := fc, state := .Open (now + cb.timeout) }
    else { cb with failureCount := fc }
  | .HalfOpen =>
    { cb with state := .Open (now + cb.timeout), successCount := 0 }
  | _ => cb

/-! ## Adaptive pacer (core/src/rate_limiter.rs) -/

structure AdaptiveRateLimiter where
  currentRate : ℚ
  minRate : ℚ
  maxRate : ℚ
  remainingRequests : Option Nat
  remainingTokens : Option Nat
  resetTime : Option ℚ
  deriving DecidableEq, Repr

/-- `AdaptiveRateLimiter::new`. -/
def AdaptiveRateLimiter.new (initialRate minRate maxRate : ℚ) : AdaptiveRateLimiter :=
  { currentRate := initialRate, minRate := minRate, maxRate := maxRate,
    remainingRequests := none, remainingTokens := none, resetTime := none }

/-- `AdaptiveRateLimiter::adjust_rate`: clamp the suggestion into
`[min_rate, max_rate]` and update only past the `0.1` hysteresis. -/
def AdaptiveRateLimiter.adjustRate (a : AdaptiveRateLimiter) (suggested : ℚ) :
    AdaptiveRateLimiter :=
  let newRate := min (max suggested a.minRate) a.maxRate
  if 1 / 10 < |newRate - a.currentRate| then { a with currentRate := newRate } else a

/-- `AdaptiveRateLimiter::update_from_headers`. -/
def AdaptiveRateLimiter.updateFromHeaders (a : AdaptiveRateLimiter)
    (remainingRequests remainingTokens : Option Nat)
    (resetAfterSeconds : Option Nat) (now : ℚ) : AdaptiveRateLimiter :=
  let a := match remainingRequests with
    | some requests => { a with remainingRequests := some requests }
    | none => a
  let a := match remainingTokens with
    | some tokens => { a with remainingTokens := some tokens }
    | none => a
  let a := match resetAfterSeconds with
    | some resetSeconds => { a with resetTime := some (now + (resetSeconds : ℚ)) }
    | none => a
  match remainingRequests, resetAfterSeconds with
  | some remaining, some reset =>
    if 0 < reset then a.adjustRate ((remaining : ℚ) / (reset : ℚ)) else a
  | _, _ => a

/-! ## Azure rate-limit coordinator (core/src/azure_rate_limiter.rs) -/

structure ModelRateLimits where
  tokensPerMinute : Nat
  requestsPerMinute : Nat
  deriving DecidableEq, Repr

/-- `ModelRateLimits::default()`: 30000 TPM / 300 RPM. -/
def ModelRateLimits.default : ModelRateLimits :=
  { tokensPerMinute := 30000, requestsPerMinute := 300 }

/-- `AzureOpenAIRateLimiter::default_model_limits`. -/
def defaultModelLimits : List (String × ModelRateLimits) :=
  [ ("gpt-5", ⟨20000, 200⟩), ("gpt-5-mini", ⟨20000, 200⟩),
    ("gpt-5-nano", ⟨20000, 200⟩), ("gpt-5-chat", ⟨20000, 200⟩),
    ("gpt-4o", ⟨30000, 300⟩), ("gpt-4o-mini", ⟨30000, 300⟩),
    ("gpt-4.1", ⟨30000, 300⟩), ("gpt-4.1-nano", ⟨30000, 300⟩),
    ("gpt-4.1-mini", ⟨30000, 300⟩),
    ("o1", ⟨10000, 50⟩), ("o3", ⟨10000, 50⟩),
    ("o3-mini", ⟨15000, 100⟩), ("o4-mini", ⟨15000, 100⟩) ]

structure LimiterContext where
  bucketKey : String
  modelHint : String
  deriving DecidableEq, Repr

structure AzureRateLimitConfig where
  enabled : Bool
  customLimits : List (String × ModelRateLimits)
  circuitBreakerThreshold : Nat
  circuitBreakerTimeoutSecs : Nat
  aggressiveThrottling : Bool
  deriving DecidableEq, Repr

/-- `AzureRateLimitConfig::default()`. -/
def AzureRateLimitConfig.default : AzureRateLimitConfig :=
  { enabled := true, customLimits := [], circuitBreakerThreshold := 5,
    circuitBreakerTimeoutSecs := 30, aggressiveThrottling := false }

structure AzureOpenAIRateLimiter where
  modelLimits : List (String × ModelRateLimits)
  tokenBuckets : List (String × TokenBucket)
  requestBuckets : List (String × TokenBucket)
  circuitBreaker : CircuitBreaker
  adaptiveLimiter : AdaptiveRateLimiter
  lastContext : Option LimiterContext
  deriving DecidableEq, Repr

/-- `AzureOpenAIRateLimiter::with_config`. -/
def AzureOpenAIRateLimiter.withConfig (config : AzureRateLimitConfig) :
    AzureOpenAIRateLimiter :=
  { modelLimits := config.customLimits.foldl (fun m kv => insertA m kv.1 kv.2)
      defaultModelLimits,
    tokenBuckets := [], requestBuckets := [],
    circuitBreaker := CircuitBreaker.new config.circuitBreakerThreshold 2
      (config.circuitBreakerTimeoutSecs : ℚ),
    adaptiveLimiter := AdaptiveRateLimiter.new
      (if config.aggressiveThrottling then 5 else 10) 1
      (if config.aggressiveThrottling then 30 else 50),
    lastContext := none }

/-- `AzureOpenAIRateLimiter::new()`. -/
def AzureOpenAIRateLimiter.mkDefault : AzureOpenAIRateLimiter :=
  AzureOpenAIRateLimiter.withConfig AzureRateLimitConfig.default

/-- `get_token_bucket_for_key` (also `get_token_bucket`, which is the
same logic with `bucket_key = model_hint`): create the bucket for the
key from the model hint's per-minute capacity when absent. -/
def ensureTokenBucket (s : AzureOpenAIRateLimiter) (bucketKey modelHint : String)
    (now : ℚ) : AzureOpenAIRateLimiter :=
  if containsA s.tokenBuckets bucketKey then s
  else
    let limits := (lookupA s.modelLimits modelHint).getD ModelRateLimits.default
    let tokensPerSecond := (limits.tokensPerMinute : ℚ) / 60
    let bucket := TokenBucket.new (limits.tokensPerMinute : ℚ) tokensPerSecond now
    { s with tokenBuckets := insertA s.tokenBuckets bucketKey bucket }

/-- `get_request_bucket_for_key` (also `get_request_bucket`). -/
def ensureRequestBucket (s : AzureOpenAIRateLimiter) (bucketKey modelHint : String)
    (now : ℚ) : AzureOpenAIRateLimiter :=
  if containsA s.requestBuckets bucketKey then s
  else
    let limits := (lookupA s.modelLimits modelHint).getD ModelRateLimits.default
    let requestsPerSecond := (limits.requestsPerMinute : ℚ) / 60
    let bucket := TokenBucket.new (limits.requestsPerMinute : ℚ) requestsPerSecond now
    { s with requestBuckets := insertA s.requestBuckets bucketKey bucket }

/-- The `available_tokens()` debug read of `acquire`, which refills the
shared bucket stored in the map. -/
def refreshBucket (m : List (String × TokenBucket)) (key : String) (now : ℚ) :
    List (String × TokenBucket) :=
  match lookupA m key with
  | some b => insertA m key (b.refill now)
  | none => m

/-- `TokenBucket::acquire` applied to the bucket stored under `key`. -/
def bucketAcquire (m : List (String × TokenBucket)) (key : String) (n now : ℚ) :
    Except String Unit × List (String × TokenBucket) × List AcqEvent :=
  match lookupA m key with
  | some b =>
    let (res, b', evs) := b.acquire n now
    (res, insertA m key b', evs)
  | none => (.ok (), m, [])

/-- Error outcomes of `acquire` (the source formats them as strings). -/
inductive AcquireError where
  | circuitOpen
  | capacityExceeded
  | tokenAcquireFailed (msg : String)
  | requestAcquireFailed (msg : String)
  deriving DecidableEq, Repr

/-- `AzureOpenAIRateLimiter::acquire_for_deployment` (and `acquire`,
which is the same flow with `deployment = model_hint`): record the
limiter context, gate on the circuit breaker, apply the adaptive pacing
delay, ensure both buckets, pre-check the estimate against the model
hint's per-minute token capacity, then debit tokens before the request
permit.  The call is evaluated at the single instant `now`; sleeps are
reported as events. -/
def AzureOpenAIRateLimiter.acquireForDeployment (s : AzureOpenAIRateLimiter)
    (deployment modelHint : String) (estimatedTokens : Nat) (now : ℚ) :
    Except AcquireError Unit × AzureOpenAIRateLimiter × List AcqEvent :=
  let s := { s with lastContext := some ⟨deployment, modelHint⟩ }
  match s.circuitBreaker.isAllowed now with
  | (false, cb) => (.error .circuitOpen, { s with circuitBreaker := cb }, [])
  | (true, cb) =>
    let s := { s with circuitBreaker := cb }
    let currentRate := s.adaptiveLimiter.currentRate
    let evs := if 0 < currentRate then [AcqEvent.paceSleep (1 / currentRate)] else []
    let s := ensureTokenBucket s deployment modelHint now
    let s := ensureRequestBucket s deployment modelHint now
    let s := { s with tokenBuckets := refreshBucket s.tokenBuckets deployment now }
    let s := { s with requestBuckets := refreshBucket s.requestBuckets deployment now }
    let capacity := ((lookupA s.modelLimits modelHint).getD ModelRateLimits.default).tokensPerMinute
    if capacity < estimatedTokens then
      (.error .capacityExceeded, s, evs)
    else
      match bucketAcquire s.tokenBuckets deployment (estimatedTokens : ℚ) now with
      | (.error msg, m, evs2) =>
        (.error (.tokenAcquireFailed msg), { s with tokenBuckets := m }, evs ++ evs2)
      | (.ok _, m, evs2) =>
        let s := { s with tokenBuckets := m }
        match bucketAcquire s.requestBuckets deployment 1 now with
        | (.error msg, m', evs3) =>
          (.error (.requestAcquireFailed msg), { s with requestBuckets := m' },
            evs ++ evs2 ++ evs3)
        | (.ok _, m', evs3) =>
          (.ok (), { s with requestBuckets := m' }, evs ++ evs2 ++ evs3)

/-- `AzureOpenAIRateLimiter::acquire(model, estimated_tokens)`: the same
flow keyed and seeded by the model name itself. -/
def AzureOpenAIRateLimiter.acquire (s : AzureOpenAIRateLimiter) (model : String)
    (estimatedTokens : Nat) (now : ℚ) :
    Except AcquireError Unit × AzureOpenAIRateLimiter × List AcqEvent :=
  s.acquireForDeployment model model estimatedTokens now

/-- `apply_dynamic_limits`: overwrite the model hint's `ModelRateLimits`
with the advertised capacities, then, for each advertised capacity whose
bucket exists under the context's key, replace the bucket with a fresh
one of capacity `L` and refill rate `L/60`, preserving the previous
availability clamped to the new capacity via `force_debit`. -/
def AzureOpenAIRateLimiter.applyDynamicLimits (s : AzureOpenAIRateLimiter)
    (ctx : LimiterContext) (limitTokens limitRequests : Option Nat) (now : ℚ) :
    AzureOpenAIRateLimiter :=
  let limits := (lookupA s.modelLimits ctx.modelHint).getD ModelRateLimits.default
  let limits := match limitTokens with
    | some tpm => { limits with tokensPerMinute := tpm }
    | none => limits
  let limits := match limitRequests with
    | some rpm => { limits with requestsPerMinute := rpm }
    | none => limits
  let s := { s with modelLimits := insertA s.modelLimits ctx.modelHint limits }
  let s := match limitTokens with
    | some tpm =>
      match lookupA s.tokenBuckets ctx.bucketKey with
      | some old =>
        let (oldAvail, _) := old.availableTokens now
        let cap : ℚ := (tpm : ℚ)
        let rps := cap / 60
        let newBucket := (TokenBucket.new cap rps now).forceDebit (max (cap - min oldAvail cap) 0)
        { s with tokenBuckets := insertA s.tokenBuckets ctx.bucketKey newBucket }
      | none => s
    | none => s
  match limitRequests with
  | some rpm =>
    match lookupA s.requestBuckets ctx.bucketKey with
    | some old =>
      let (oldAvail, _) := old.availableTokens now
      let cap : ℚ := (rpm : ℚ)
      let rps := cap / 60
      let newBucket := (TokenBucket.new cap rps now).forceDebit (max (cap - min oldAvail cap) 0)
      { s with requestBuckets := insertA s.requestBuckets ctx.bucketKey newBucket }
    | none => s
  | none => s

/-- Extract a `u32`-valued header (`update_from_response`'s parsing of
the `x-ratelimit-*` headers). -/
def headerU32 (headers : Headers) (name : String) : Option Nat :=
  match headers.get name with
  | some v =>
    match v.toStr with
    | some s => parseU32 s
    | none => none
  | none => none

/-- Extract a `u64`-valued header. -/
def headerU64 (headers : Headers) (name : String) : Option Nat :=
  match headers.get name with
  | some v =>
    match v.toStr with
    | some s => parseU64 s
    | none => none
  | none => none

/-- `AzureOpenAIRateLimiter::update_from_response`: parse the
`x-ratelimit-{remaining,reset,limit}-{requests,tokens}` headers, feed
the adaptive pacer (using the larger reset when both are present), and
apply dynamic capacities to the last-recorded context's buckets when
either *limit* header is present. -/
def AzureOpenAIRateLimiter.updateFromResponse (s : AzureOpenAIRateLimiter)
    (headers : Headers) (now : ℚ) : AzureOpenAIRateLimiter :=
  let remainingRequests := headerU32 headers "x-ratelimit-remaining-requests"
  let remainingTokens := headerU32 headers "x-ratelimit-remaining-tokens"
  let resetRequests := headerU64 headers "x-ratelimit-reset-requests"
  let resetTokens := headerU64 headers "x-ratelimit-reset-tokens"
  let limitRequests := headerU32 headers "x-ratelimit-limit-requests"
  let limitTokens := headerU32 headers "x-ratelimit-limit-tokens"
  let resetSeconds := match resetRequests, resetTokens with
    | some r, some t => some (max r t)
    | some r, none => some r
    | none, some t => some t
    | none, none => none
  let s := { s with adaptiveLimiter :=
    s.adaptiveLimiter.updateFromHeaders remainingRequests remainingTokens resetSeconds now }
  if limitRequests.isSome ∨ limitTokens.isSome then
    match s.lastContext with
    | some ctx => s.applyDynamicLimits ctx limitTokens limitRequests now
    | none => s
  else s

/-! ## Azure detection (codex-api/src/azure.rs) -/

/-- `AZURE_DOMAIN_SUFFIXES`: the closed list of hostname suffixes that
identify legitimate Azure OpenAI endpoints. -/
def AZURE_DOMAIN_SUFFIXES : List String :=
  [ ".openai.azure.com", ".openai.azure.us", ".openai.azure.cn",
    ".cognitiveservices.azure.com", ".cognitiveservices.azure.us",
    ".cognitiveservices.azure.cn", ".aoai.azure.com" ]

/-- Split a character list at the first occurrence of the (nonempty)
pattern, dropping the pattern; `none` when it does not occur. -/
def splitOnSub (pat : List Char) : List Char → Option (List Char × List Char)
  | [] => none
  | c :: rest =>
    if pat.isPrefixOf (c :: rest) then some ([], (c :: rest).drop pat.length)
    else
      match splitOnSub pat rest with
      | some (a, b) => some (c :: a, b)
      | none => none

/-- The portion of a character list after the last occurrence of `sep`
(the whole list when `sep` does not occur). -/
def afterLastChar (sep : Char) (l : List Char) : List Char :=
  (l.reverse.takeWhile (· ≠ sep)).reverse

/-- Host extraction, modelling `url::Url::parse(..).host_str()` of the
external `url` crate for the hierarchical `scheme://…` URLs the client
meets: `none` is a parse error (no `://` or an invalid scheme),
`some none` a URL without a host, `some (some h)` the authority's host
(userinfo and port stripped). -/
def urlHost (s : String) : Option (Option String) :=
  match splitOnSub "://".data s.data with
  | none => none
  | some (scheme, rest) =>
    if scheme ≠ [] ∧ scheme.headI.isAlpha ∧
        scheme.all (fun c => c.isAlphanum ∨ c = '+' ∨ c = '-' ∨ c = '.') then
      let authority := rest.takeWhile (fun c => c ≠ '/' ∧ c ≠ '?' ∧ c ≠ '#')
      let hostPort := afterLastChar '@' authority
      let host := hostPort.takeWhile (· ≠ ':')
      if host = [] then some none else some (some ⟨host⟩)
    else none

/-- `is_azure_base_url` (codex-api/src/azure.rs): compare the lowercased
host against the closed suffix list; when URL parsing fails, fall back
to a narrow substring check on the lowercased input. -/
def isAzureBaseUrl (baseUrl : String) : Bool :=
  match urlHost baseUrl with
  | none =>
    let baseLower := asciiLower baseUrl
    strContains baseLower "openai.azure." ∨ strContains baseLower "cognitiveservices.azure."
  | some none => false
  | some (some host) =>
    let hostLower := asciiLower host
    AZURE_DOMAIN_SUFFIXES.any (fun suffix => strEndsWith hostLower suffix)

/-! ## Provider URL assembly (codex-api/src/provider.rs) -/

inductive WireApi where
  | Responses
  | Chat
  | Compact
  deriving DecidableEq, Repr

/-- `Provider`, restricted to the fields its URL-building and Azure
detection methods consult (headers, retry policy and stream idle timeout
are never read by them). -/
structure Provider where
  name : String
  baseUrl : String
  queryParams : Option (List (String × String))
  wire : WireApi
  deriving DecidableEq, Repr

/-- `str::trim_start_matches('/')`. -/
def trimLeadingSlashes : List Char → List Char
  | '/' :: rest => trimLeadingSlashes rest
  | l => l

/-- `str::trim_end_matches('/')`. -/
def trimTrailingSlashes (l : List Char) : List Char :=
  (trimLeadingSlashes l.reverse).reverse

/-- Upper-case hexadecimal digit. -/
def hexDigit (n : Nat) : Char :=
  if n < 10 then Char.ofNat ('0'.toNat + n) else Char.ofNat ('A'.toNat + n - 10)

/-- UTF-8 bytes of a character. -/
def utf8Bytes (c : Char) : List Nat :=
  let n := c.toNat
  if n < 128 then [n]
  else if n < 2048 then [192 + n / 64, 128 + n % 64]
  else if n < 65536 then [224 + n / 4096, 128 + (n / 64) % 64, 128 + n % 64]
  else [240 + n / 262144, 128 + (n / 4096) % 64, 128 + (n / 64) % 64, 128 + n % 64]

/-- `urlencoding::encode`: percent-encode everything except ASCII
alphanumerics and `-`, `_`, `.`, `~`. -/
def percentEncode (s : String) : List Char :=
  s.data.flatMap fun c =>
    if c.isAlphanum ∨ c = '-' ∨ c = '_' ∨ c = '.' ∨ c = '~' then [c]
    else (utf8Bytes c).flatMap fun b => ['%', hexDigit (b / 16), hexDigit (b % 16)]

/-- Join query-string fragments with `&`. -/
def joinAmp (l : List (List Char)) : List Char :=
  (List.intersperse ['&'] l).flatten

/-- `Provider::url_for_path` (codex-api/src/provider.rs): trim the
leading `/` from the path and the trailing `/` from the base's path
part, split the base at its first `?`, join path and base with `/`, and
append the existing query string followed by the percent-encoded
explicit query params, `&`-joined. -/
def Provider.urlForPath (p : Provider) (path : String) : String :=
  let path := trimLeadingSlashes path.data
  let (basePath, existingQuery) :=
    match splitOnceChar '?' p.baseUrl.data with
    | some (b, q) => (trimTrailingSlashes b, some q)
    | none => (trimTrailingSlashes p.baseUrl.data, none)
  let url := if path = [] then basePath else basePath ++ '/' :: path
  let allParams : List (List Char) :=
    (match existingQuery with
     | some qs => if qs ≠ [] then [qs] else []
     | none => []) ++
    (match p.queryParams with
     | some params =>
       if params ≠ [] then
         [joinAmp (params.map fun kv => percentEncode kv.1 ++ '=' :: percentEncode kv.2)]
       else []
     | none => [])
  if allParams = [] then ⟨url⟩ else ⟨url ++ '?' :: joinAmp allParams⟩

/-- `Provider::is_azure_responses_endpoint`. -/
def Provider.isAzureResponsesEndpoint (p : Provider) : Bool :=
  if p.wire ≠ .Responses then false
  else if asciiLower p.name = "azure" then true
  else isAzureBaseUrl p.baseUrl

/-! ## Azure response-ID URL insertion (core/src/azure.rs) -/

/-- `ModelProviderInfo`, restricted to the fields `build_azure_url`
reads through `get_full_url`. -/
structure ModelProviderInfo where
  name : String
  baseUrl : Option String
  queryParams : Option (List (String × String))
  deriving DecidableEq, Repr

/-- Modelled from the spec: `ModelProviderInfo::get_full_url` lives in
core/src/model_provider_info.rs, which is not among the sources.  Per
the call-site comment in core/src/azure.rs it "already ends with
`/responses?...`", and per the spec the Responses wire endpoint is
`POST {base}/responses[?api-version=…]` with URL-encoded query params:
the model joins the base URL (trailing slashes trimmed) with the
`responses` segment and appends the provider's query parameters. -/
def ModelProviderInfo.getFullUrl (p : ModelProviderInfo) : String :=
  let base := trimTrailingSlashes (p.baseUrl.getD "https://api.openai.com/v1").data
  let url := base ++ '/' :: "responses".data
  match p.queryParams with
  | some params =>
    if params ≠ [] then
      ⟨url ++ '?' :: joinAmp (params.map fun kv => percentEncode kv.1 ++ '=' :: percentEncode kv.2)⟩
    else ⟨url⟩
  | none => ⟨url⟩

/-- The core of `build_azure_url` (core/src/azure.rs): separate the
query string at the first `?`, ensure the path part ends with `/`,
append the suffix (leading slashes trimmed), and reattach the query. -/
def insertBeforeQuery (baseWithQuery suffix : List Char) : List Char :=
  let (base, query) :=
    match splitOnceChar '?' baseWithQuery with
    | some (b, q) => (b, '?' :: q)
    | none => (baseWithQuery, ([] : List Char))
  let url := if base.getLast? = some '/' then base else base ++ ['/']
  url ++ trimLeadingSlashes suffix ++ query

/-- `build_azure_url` (core/src/azure.rs): insert a `{response_id}` (or
`{response_id}/input_items`) segment before the query string of the
provider's full Responses URL. -/
def buildAzureUrl (provider : ModelProviderInfo) (suffix : String) : String :=
  ⟨insertBeforeQuery provider.getFullUrl.data suffix.data⟩

/-! ## Spec-side reference definitions

These definitions transcribe the *specification's* wording (not the
source) and exist only to be compared against the embedded code. -/

/-- First-some choice, used to transcribe "first valid wins". -/
def orElseO {α : Type} (a b : Option α) : Option α :=
  match a with
  | some x => some x
  | none => b

/-- The spec-described value of one millisecond header. -/
def msHeaderVal (h : Headers) (name : String) : Option Dur :=
  (((h.get name).bind HVal.toStr).bind parseU64).map durFromMillis

/-- The spec's reading of the retry-after precedence chain: each header
contributes a value only if it is present, UTF-8, and parses; the first
valid value wins and invalid higher-priority headers fall through. -/
def retryAfterSpec (h : Headers) : Option Dur :=
  orElseO (msHeaderVal h "retry-after-ms")
    (orElseO (msHeaderVal h "x-ms-retry-after-ms")
      (((h.get "retry-after").bind HVal.toStr).bind retryAfterSecsVal))

/-- The claim's chain-break condition, transcribed literally: only the
`previous`/`not found` bullet lowercases the message, the other message
checks are verbatim (case-sensitive) containment. -/
def chainBreakCondClaim (param msg : String) : Bool :=
  param = "previous_response_id"
  ∨ (strContains (asciiLower msg) "previous" ∧ strContains (asciiLower msg) "not found")
  ∨ (strStartsWith param "input" ∧ strContains msg "not found")
  ∨ (param = "input" ∧ strContains msg "duplicate item")
  ∨ (param = "input" ∧ strContains msg "no tool output found")
  ∨ (param = "input" ∧ strContains msg "output is missing")

/-- A 400 body of the shape the classifier inspects:
`{"error": {"type": "invalid_request_error", "param": P, "message": M}}`. -/
def errBody (param msg : String) : Json :=
  .obj [("error", .obj [("type", .str "invalid_request_error"),
                        ("param", .str param), ("message", .str msg)])]

/-- No `TokenBucket` wait occurs in an event trace. -/
def noBucketSleep (evs : List AcqEvent) : Prop :=
  ∀ d, AcqEvent.bucketSleep d ∉ evs

/-- Every bucket present in `m` is still present in `m'` with at least
as many tokens (nothing was debited; refills may have added). -/
def noBucketDebited (m m' : List (String × TokenBucket)) : Prop :=
  ∀ k b, lookupA m k = some b →
    ∃ b', lookupA m' k = some b' ∧ b.tokens ≤ b'.tokens ∧ b'.capacity = b.capacity

/-! # Theorems -/

section Theorems

attribute [local semireducible] Rat.mul Rat.add Rat.sub Rat.inv

/-- The seconds leg as an `Option.bind` chain. -/
theorem parseRetryAfterSecs_eq (h : Headers) :
    parseRetryAfterSecs h = ((h.get "retry-after").bind HVal.toStr).bind retryAfterSecsVal := by
  unfold parseRetryAfterSecs
  rcases h.get "retry-after" with _ | v
  · rfl
  · cases v <;> rfl

/-- The `x-ms-retry-after-ms` leg as an `Option.bind` chain with
fallthrough. -/
theorem parseRetryAfterXms_eq (h : Headers) :
    parseRetryAfterXms h =
      orElseO (msHeaderVal h "x-ms-retry-after-ms") (parseRetryAfterSecs h) := by
  unfold parseRetryAfterXms msHeaderVal
  rcases h.get "x-ms-retry-after-ms" with _ | v
  · rfl
  · cases v with
    | utf8 s =>
      simp only [HVal.toStr, Option.some_bind]
      rcases hp : parseU64 s with _ | ms <;> simp only [hp] <;> rfl
    | bin => rfl

/-- C4 — `parse_retry_after_headers` obeys the precedence
`retry-after-ms` → `x-ms-retry-after-ms` → `retry-after` with first
valid value winning and invalid or non-UTF-8 higher-priority values
falling through (stated as equality with the spec's precedence chain
`retryAfterSpec`); the claim's concrete instances: the mixed header set
parses to 500 ms, and negative, NaN or infinite `retry-after` values
give `None`. -/
theorem retry_after_header_precedence_c4 :
    (∀ h : Headers, parseRetryAfterHeaders h = retryAfterSpec h) ∧
    parseRetryAfterHeaders
      [("retry-after-ms", .utf8 "not-a-number"),
       ("x-ms-retry-after-ms", .utf8 "500"),
       ("retry-after", .utf8 "30")] = some (durFromMillis 500) ∧
    durFromMillis 500 = 1 / 2 ∧
    parseRetryAfterHeaders [("retry-after", .utf8 "-5.0")] = none ∧
    parseRetryAfterHeaders [("retry-after", .utf8 "NaN")] = none ∧
    parseRetryAfterHeaders [("retry-after", .utf8 "inf")] = none ∧
    parseRetryAfterHeaders [("retry-after-ms", .bin), ("retry-after", .utf8 "30")] =
      some (durFromSecs 30) := by
  refine ⟨fun h => ?_, by decide, by decide, by decide, by decide, by decide, by decide⟩
  unfold parseRetryAfterHeaders retryAfterSpec
  rw [← parseRetryAfterSecs_eq, ← parseRetryAfterXms_eq]
  unfold msHeaderVal
  rcases h.get "retry-after-ms" with _ | v
  · rfl
  · cases v with
    | utf8 s =>
      simp only [HVal.toStr, Option.some_bind]
      rcases hp : parseU64 s with _ | ms <;> simp only [hp] <;> rfl
    | bin => rfl

/-- C1 — counter-evidence: with a policy that retries 429/5xx/transport
and `max_attempts = 2`, an operation failing with HTTP 429 on every
attempt makes `run_with_retry` return that final 429 error itself — not
`Transport::RetryLimit` as claimed (the `RetryLimit` return after the
loop is unreachable, because `should_retry` is false once
`attempt >= max_attempts`).  The claim's other half does hold and is
evidenced concretely: a terminally-failing (non-retryable) error is
returned as-is, and no further attempts run after it (an operation that
would succeed on any later attempt still surfaces the terminal error). -/
theorem run_with_retry_exhaustion_c1 :
    runWithRetry (T := Unit)
      { maxAttempts := 2,
        retryOn := { retry429 := true, retry5xx := true, retryTransport := true } }
      (fun _ => .error (.Http 429 "https://example.test" none none)) =
      .error (.Http 429 "https://example.test" none none) ∧
    TransportError.isRetryLimit (.Http 429 "https://example.test" none none) = false ∧
    runWithRetry (T := Unit)
      { maxAttempts := 2,
        retryOn := { retry429 := true, retry5xx := true, retryTransport := true } }
      (fun attempt => if attempt = 0 then .error (.other "bad request") else .ok ()) =
      .error (.other "bad request") :=
  ⟨rfl, rfl, rfl⟩

/-- C6 — the circuit breaker realizes exactly the claimed transition
graph: the first block characterizes `is_allowed`, `record_failure` and
`record_success` in every state (so no transition outside the graph
occurs), and the second block runs the claim's concrete scenario with
thresholds (fail=3, success=2, timeout=1s). -/
theorem circuit_breaker_transitions_c6 :
    (∀ (cb : CircuitBreaker) (now : ℚ),
      (cb.state = .Closed → cb.isAllowed now = (true, cb)) ∧
      (cb.state = .HalfOpen → cb.isAllowed now = (true, cb)) ∧
      (∀ u, cb.state = .Open u →
        (now < u → cb.isAllowed now = (false, cb)) ∧
        (u ≤ now → cb.isAllowed now =
          (true, { cb with state := .HalfOpen, successCount := 0 }))) ∧
      (cb.state = .Closed → cb.failureThreshold ≤ cb.failureCount + 1 →
        cb.recordFailure now =
          { cb with failureCount := cb.failureCount + 1,
                    state := .Open (now + cb.timeout) }) ∧
      (cb.state = .Closed → cb.failureCount + 1 < cb.failureThreshold →
        cb.recordFailure now = { cb with failureCount := cb.failureCount + 1 }) ∧
      (cb.state = .HalfOpen → cb.recordFailure now =
        { cb with state := .Open (now + cb.timeout), successCount := 0 }) ∧
      (∀ u, cb.state = .Open u → cb.recordFailure now = cb) ∧
      (cb.state = .HalfOpen → cb.successThreshold ≤ cb.successCount + 1 →
        cb.recordSuccess =
          { cb with state := .Closed, successCount := cb.successCount + 1,
                    failureCount := 0 }) ∧
      (cb.state = .HalfOpen → cb.successCount + 1 < cb.successThreshold →
        cb.recordSuccess = { cb with successCount := cb.successCount + 1 }) ∧
      (cb.state = .Closed → cb.recordSuccess = { cb with failureCount := 0 }) ∧
      (∀ u, cb.state = .Open u → cb.recordSuccess = cb)) ∧
    (let cb3 := (((CircuitBreaker.new 3 2 1).recordFailure 0).recordFailure 0).recordFailure 0
     cb3.state = .Open 1 ∧ cb3.failureCount = 3 ∧
     (cb3.isAllowed 0).1 = false ∧
     (cb3.isAllowed 1).1 = true ∧ (cb3.isAllowed 1).2.state = .HalfOpen ∧
     ((cb3.isAllowed 1).2.recordSuccess.recordSuccess).state = .Closed ∧
     ((cb3.isAllowed 1).2.recordSuccess.recordSuccess).failureCount = 0) := by
  constructor
  · intro cb now
    rcases cb with ⟨st, fc, sc, ft, stc, tmo⟩
    cases st with
    | Closed =>
      refine ⟨?_, ?_, ?_, ?_, ?_, ?_, ?_, ?_, ?_, ?_, ?_⟩
      · exact fun _ => rfl
      · rintro ⟨⟩
      · rintro u ⟨⟩
      · intro _ h2
        simp [CircuitBreaker.recordFailure, h2]
      · intro _ h2
        simp [CircuitBreaker.recordFailure, not_le.mpr h2]
      · rintro ⟨⟩
      · rintro u ⟨⟩
      · rintro ⟨⟩
      · rintro ⟨⟩
      · exact fun _ => rfl
      · rintro u ⟨⟩
    | Open u0 =>
      refine ⟨?_, ?_, ?_, ?_, ?_, ?_, ?_, ?_, ?_, ?_, ?_⟩
      · rintro ⟨⟩
      · rintro ⟨⟩
      · intro u h
        injection h with hu
        subst hu
        constructor
        · intro h2
          simp [CircuitBreaker.isAllowed, not_le.mpr h2]
        · intro h2
          simp [CircuitBreaker.isAllowed, h2]
      · rintro ⟨⟩
      · rintro ⟨⟩
      · rintro ⟨⟩
      · exact fun u _ => rfl
      · rintro ⟨⟩
      · rintro ⟨⟩
      · rintro ⟨⟩
      · exact fun u _ => rfl
    | HalfOpen =>
      refine ⟨?_, ?_, ?_, ?_, ?_, ?_, ?_, ?_, ?_, ?_, ?_⟩
      · rintro ⟨⟩
      · exact fun _ => rfl
      · rintro u ⟨⟩
      · rintro ⟨⟩
      · rintro ⟨⟩
      · exact fun _ => rfl
      · rintro u ⟨⟩
      · intro _ h2
        simp [CircuitBreaker.recordSuccess, h2]
      · intro _ h2
        simp [CircuitBreaker.recordSuccess, not_le.mpr h2]
      · rintro ⟨⟩
      · rintro u ⟨⟩
  · decide

/-- Witness for C6: instantiating the characterization at a fresh
breaker in the Closed state. -/
theorem circuit_breaker_transitions_c6_witness :
    (CircuitBreaker.new 3 2 1).isAllowed 0 = (true, CircuitBreaker.new 3 2 1) :=
  (circuit_breaker_transitions_c6.1 (CircuitBreaker.new 3 2 1) 0).1 rfl

/-- C5 — counter-evidence: the body
`{"error": {"type": "invalid_request_error", "param": "input",
"message": "Duplicate Item"}}` is classified as
`PreviousResponseChainBroken` by the code (which checks substrings of
the ASCII-lowercased message), yet none of the claim's literal
conditions holds for it (the claim's `M contains "duplicate item"` is a
case-sensitive check that fails on `"Duplicate Item"`), refuting the
claimed "if and only if". -/
theorem chain_break_classifier_c5_counterexample :
    fromBadRequestBody (errBody "input" "Duplicate Item") =
      some (.PreviousResponseChainBroken "Duplicate Item") ∧
    chainBreakCondClaim "input" "Duplicate Item" = false :=
  ⟨rfl, by decide⟩

/-- C5 (amended) — for every 400 body of the inspected envelope shape,
the classifier produces `PreviousResponseChainBroken{message}` iff one
of the claimed conditions holds **with every message-substring check
performed on the ASCII-lowercased message**; all other 400 bodies (and
non-400 or body-less HTTP errors) surface as generic transport HTTP
errors.  The concrete chain-break instance of the spec is included. -/
theorem chain_break_classifier_c5 :
    (∀ param msg : String,
      fromBadRequestBody (errBody param msg) =
        (if chainBreakCond param (asciiLower msg) then
          some (.PreviousResponseChainBroken msg) else none)) ∧
    (∀ (url : String) (headers : Option Headers) (body : Json),
      apiErrorFromTransport (.Http 400 url headers (some body)) =
        (fromBadRequestBody body).getD (.Transport (.Http 400 url headers (some body)))) ∧
    (∀ (status : Nat) (url : String) (headers : Option Headers) (body : Option Json),
      status ≠ 400 ∨ body = none →
      apiErrorFromTransport (.Http status url headers body) =
        .Transport (.Http status url headers body)) ∧
    fromBadRequestBody (errBody "input" "No tool output found for custom tool call call_X.") =
      some (.PreviousResponseChainBroken
        "No tool output found for custom tool call call_X.") := by
  refine ⟨fun param msg => rfl, fun url headers body => ?_, fun status url headers body h => ?_, rfl⟩
  · cases hb : fromBadRequestBody body <;>
      simp [apiErrorFromTransport, hb]
  · rcases h with h | h
    · simp [apiErrorFromTransport, h]
    · subst h
      by_cases hs : status = 400 <;> simp [apiErrorFromTransport, hs]

/-- Witness for C5: a non-400 transport error is wrapped unchanged. -/
theorem chain_break_classifier_c5_witness :
    apiErrorFromTransport (.Http 500 "https://example.test" none none) =
      .Transport (.Http 500 "https://example.test" none none) :=
  chain_break_classifier_c5.2.2.1 500 "https://example.test" none none
    (Or.inl (by decide))

/-- Looking up the key just inserted returns the inserted value. -/
theorem jsonGetField_objInsert (fs : List (String × Json)) (k : String) (v : Json) :
    jsonGetField (objInsert fs k v) k = some v := by
  induction fs with
  | nil => simp [objInsert, jsonGetField]
  | cons kv rest ih =>
    obtain ⟨k', w⟩ := kv
    by_cases hk : k' = k <;> simp [objInsert, jsonGetField, hk, ih]

/-- Re-inserting at the same key overwrites the first insertion. -/
theorem objInsert_objInsert (fs : List (String × Json)) (k : String) (v w : Json) :
    objInsert (objInsert fs k v) k w = objInsert fs k w := by
  induction fs with
  | nil => simp [objInsert]
  | cons kv rest ih =>
    obtain ⟨k', u⟩ := kv
    by_cases hk : k' = k <;> simp [objInsert, hk, ih]

/-- Patching a serialized value with the same item twice equals patching
once. -/
theorem patchItem_idem (v : Json) (item : ResponseItem) :
    patchItem (patchItem v item) item = patchItem v item := by
  unfold patchItem
  cases hid : extractItemId item with
  | none => rfl
  | some id =>
    by_cases hne : id ≠ "" <;> cases v <;>
      simp [hid, hne, objInsert_objInsert]

/-- Patching an already-patched input array is the identity. -/
theorem zipWith_patchItem_idem (elems : List Json) (items : List ResponseItem) :
    List.zipWith patchItem (List.zipWith patchItem elems items) items =
      List.zipWith patchItem elems items := by
  induction elems generalizing items with
  | nil => simp
  | cons v rest ih =>
    cases items with
    | nil => simp
    | cons it its => simp [List.zipWith, patchItem_idem, ih]

/-- Element-wise description of `zipWith patchItem`. -/
theorem zipWith_patchItem_getElem (elems : List Json) (items : List ResponseItem)
    (i : Nat) (v : Json) (it : ResponseItem) (hv : elems[i]? = some v)
    (hit : items[i]? = some it) :
    (List.zipWith patchItem elems items)[i]? = some (patchItem v it) := by
  induction elems generalizing items i with
  | nil => simp at hv
  | cons e rest ih =>
    cases items with
    | nil => simp at hit
    | cons j its =>
      cases i with
      | zero =>
        simp at hv hit
        simp [List.zipWith, hv, hit]
      | succ n =>
        simp at hv hit
        simpa [List.zipWith] using ih its n hv hit

/-- C8 — the payload patcher: (1) when the serialized `input` array and
the original items have equal length, the result replaces `input` by the
element-wise patch; (2) the element-wise patch inserts `"id": <id>` into
the object at index `i` iff original item `i` carries a non-empty ID
(`Reasoning` always; the optional-ID variants when present), and leaves
every other value unchanged; (3) on a length mismatch the patcher fails
loudly (the modelled panic); (4) patching is idempotent. -/
theorem attach_item_ids_c8 :
    (∀ (fields : List (String × Json)) (elems : List Json) (items : List ResponseItem),
      jsonGetField fields "input" = some (.arr elems) →
      elems.length = items.length →
      attachItemIdsToJson (.obj fields) items =
        .ok (.obj (objInsert fields "input"
          (.arr (List.zipWith patchItem elems items))))) ∧
    (∀ (fs : List (String × Json)) (item : ResponseItem) (id : String),
      extractItemId item = some id → id ≠ "" →
      patchItem (.obj fs) item = .obj (objInsert fs "id" (.str id))) ∧
    (∀ (v : Json) (item : ResponseItem),
      extractItemId item = none ∨ extractItemId item = some "" →
      patchItem v item = v) ∧
    (∀ (elems : List Json) (items : List ResponseItem) (i : Nat) (v : Json)
        (it : ResponseItem), elems[i]? = some v → items[i]? = some it →
      (List.zipWith patchItem elems items)[i]? = some (patchItem v it)) ∧
    (∀ (fields : List (String × Json)) (elems : List Json) (items : List ResponseItem),
      jsonGetField fields "input" = some (.arr elems) →
      elems.length ≠ items.length →
      attachItemIdsToJson (.obj fields) items =
        .error "attach_item_ids_to_json: length mismatch") ∧
    (∀ (payload : Json) (items : List ResponseItem) (result : Json),
      attachItemIdsToJson payload items = .ok result →
      attachItemIdsToJson result items = .ok result) := by
  refine ⟨?_, ?_, ?_, zipWith_patchItem_getElem, ?_, ?_⟩
  · intro fields elems items hin hlen
    simp [attachItemIdsToJson, hin, hlen]
  · intro fs item id hid hne
    simp [patchItem, hid, hne]
  · intro v item h
    rcases h with h | h <;> cases v <;> simp [patchItem, h]
  · intro fields elems items hin hlen
    simp [attachItemIdsToJson, hin, hlen]
  · intro payload items result hok
    cases payload with
    | obj fields =>
      unfold attachItemIdsToJson at hok
      cases hin : jsonGetField fields "input" with
      | none =>
        simp [hin] at hok
        subst hok
        simp [attachItemIdsToJson, hin]
      | some v =>
        cases v with
        | arr elems =>
          simp [hin] at hok
          by_cases hlen : elems.length = items.length
          · simp [hlen] at hok
            subst hok
            have hlen2 : (List.zipWith patchItem elems items).length = items.length := by
              simp [List.length_zipWith]
              omega
            simp [attachItemIdsToJson, jsonGetField_objInsert, hlen2,
              objInsert_objInsert, zipWith_patchItem_idem]
          · simp [hlen] at hok
        | null =>
          simp [hin] at hok
          subst hok
          simp [attachItemIdsToJson, hin]
        | bool b =>
          simp [hin] at hok
          subst hok
          simp [attachItemIdsToJson, hin]
        | num q =>
          simp [hin] at hok
          subst hok
          simp [attachItemIdsToJson, hin]
        | str s =>
          simp [hin] at hok
          subst hok
          simp [attachItemIdsToJson, hin]
        | obj fs =>
          simp [hin] at hok
          subst hok
          simp [attachItemIdsToJson, hin]
    | null =>
      simp [attachItemIdsToJson] at hok
      subst hok
      simp [attachItemIdsToJson]
    | bool b =>
      simp [attachItemIdsToJson] at hok
      subst hok
      simp [attachItemIdsToJson]
    | num q =>
      simp [attachItemIdsToJson] at hok
      subst hok
      simp [attachItemIdsToJson]
    | str s =>
      simp [attachItemIdsToJson] at hok
      subst hok
      simp [attachItemIdsToJson]
    | arr elems =>
      simp [attachItemIdsToJson] at hok
      subst hok
      simp [attachItemIdsToJson]

/-- Witness for C8: the patcher on the test payload of the sources — a
two-element `input` with one ID-carrying and one ID-less message. -/
theorem attach_item_ids_c8_witness :
    attachItemIdsToJson
      (.obj [("model", .str "gpt-4"),
             ("input", .arr [.obj [("type", .str "message")],
                             .obj [("type", .str "message")]])])
      [.Message (some "msg-1"), .Message none] =
      .ok (.obj [("model", .str "gpt-4"),
                 ("input", .arr [.obj [("type", .str "message"), ("id", .str "msg-1")],
                                 .obj [("type", .str "message")]])]) :=
  (attach_item_ids_c8.1
    [("model", .str "gpt-4"),
     ("input", .arr [.obj [("type", .str "message")], .obj [("type", .str "message")]])]
    [.obj [("type", .str "message")], .obj [("type", .str "message")]]
    [.Message (some "msg-1"), .Message none] rfl rfl).trans rfl

/-- C10 — when the payload has no `input` key, or its `input` value is
not a JSON array (also on a non-object payload), the patcher returns the
payload unchanged for every original item sequence — the length check
and the panic are unreachable. -/
theorem attach_item_ids_no_input_c10 :
    ∀ (payload : Json) (items : List ResponseItem),
      (∀ elems, payload.get "input" ≠ some (.arr elems)) →
      attachItemIdsToJson payload items = .ok payload := by
  intro payload items h
  cases payload with
  | obj fields =>
    unfold attachItemIdsToJson
    cases hg : jsonGetField fields "input" with
    | none => simp [hg]
    | some v =>
      cases v with
      | arr es => exact absurd (by simp [Json.get, hg]) (h es)
      | null => simp [hg]
      | bool b => simp [hg]
      | num q => simp [hg]
      | str s => simp [hg]
      | obj fs => simp [hg]
  | null => rfl
  | bool b => rfl
  | num q => rfl
  | str s => rfl
  | arr es => rfl

/-- Witness for C10: a payload without an `input` key is returned
unchanged even though the (non-empty) item sequence has a different
length than any would-be input. -/
theorem attach_item_ids_no_input_c10_witness :
    attachItemIdsToJson (.obj [("model", .str "gpt-4")]) [.Reasoning "r1"] =
      .ok (.obj [("model", .str "gpt-4")]) :=
  attach_item_ids_no_input_c10 _ _ (fun _ h => nomatch h)

/-- C9 — Azure detection is exactly host-suffix matching over the
closed suffix list on the parsed URL's lowercased host, with the narrow
substring fallback when parsing fails (the host extraction of the
external `url` crate is modelled by `urlHost`); the claim's concrete
positives and negatives, including Azure Front Door, APIM, CDN,
azurewebsites and blob-storage hosts with `openai` in the path. -/
theorem azure_detection_c9 :
    (∀ s : String,
      isAzureBaseUrl s = true ↔
        (match urlHost s with
         | some (some host) =>
           strEndsWith (asciiLower host) ".openai.azure.com" = true ∨
           strEndsWith (asciiLower host) ".openai.azure.us" = true ∨
           strEndsWith (asciiLower host) ".openai.azure.cn" = true ∨
           strEndsWith (asciiLower host) ".cognitiveservices.azure.com" = true ∨
           strEndsWith (asciiLower host) ".cognitiveservices.azure.us" = true ∨
           strEndsWith (asciiLower host) ".cognitiveservices.azure.cn" = true ∨
           strEndsWith (asciiLower host) ".aoai.azure.com" = true
         | some none => False
         | none =>
           strContains (asciiLower s) "openai.azure." = true ∨
           strContains (asciiLower s) "cognitiveservices.azure." = true)) ∧
    isAzureBaseUrl "https://foo.openai.azure.com/openai" = true ∧
    isAzureBaseUrl "https://myproxy.azurewebsites.net/openai" = false ∧
    isAzureBaseUrl "https://foo.z01.azurefd.net/" = false ∧
    isAzureBaseUrl "https://foo.openai.azure-api.net/openai" = false ∧
    isAzureBaseUrl "https://cdn.example.azureedge.net/openai" = false ∧
    isAzureBaseUrl "https://myaccount.blob.core.windows.net/openai/something" = false ∧
    isAzureBaseUrl "https://api.openai.com/v1" = false := by
  refine ⟨fun s => ?_, by decide, by decide, by decide, by decide, by decide,
    by decide, by decide⟩
  unfold isAzureBaseUrl
  cases hu : urlHost s with
  | none => simp
  | some oh =>
    cases oh with
    | none => simp
    | some host =>
      simp [AZURE_DOMAIN_SUFFIXES, List.any_eq_true]

/-- Splitting at the first `?` of `base ++ '?' :: query` recovers the
two parts when the base holds no `?`. -/
theorem splitOnceChar_append (b q : List Char) (hb : '?' ∉ b) :
    splitOnceChar '?' (b ++ '?' :: q) = some (b, q) := by
  induction b with
  | nil => simp [splitOnceChar]
  | cons c rest ih =>
    have hc : c ≠ '?' := fun h => hb (h ▸ List.mem_cons_self c rest)
    have hrest : '?' ∉ rest := fun hm => hb (List.mem_cons_of_mem c hm)
    simp [splitOnceChar, hc, ih hrest]

/-- C7 — the URL builders: (1) for every base URL `bp ++ "?" ++ Q` with
no `?` in `bp` and nonempty query `Q`, and every suffix whose
slash-trimmed form is nonempty, `url_for_path` (without extra query
params) yields `{base_path}/{S}?{Q}` with the trailing slashes trimmed
from `bp` and the leading slashes from `S`; (2) the Azure response-ID
insertion obeys the same rule, appending the suffix as a path segment
before the query tail; (3) the claim's concrete Azure example through
`build_azure_url`. -/
theorem url_builder_c7 :
    (∀ (name : String) (wire : WireApi) (bp q s : List Char),
      '?' ∉ bp → q ≠ [] → trimLeadingSlashes s ≠ [] →
      Provider.urlForPath ⟨name, ⟨bp ++ '?' :: q⟩, none, wire⟩ ⟨s⟩ =
        ⟨trimTrailingSlashes bp ++ '/' :: (trimLeadingSlashes s ++ '?' :: q)⟩) ∧
    (∀ (b q s : List Char), '?' ∉ b →
      insertBeforeQuery (b ++ '?' :: q) s =
        (if b.getLast? = some '/' then b else b ++ ['/']) ++
          (trimLeadingSlashes s ++ '?' :: q)) ∧
    buildAzureUrl
      { name := "Azure", baseUrl := some "https://r.openai.azure.com/openai/v1",
        queryParams := some [("api-version", "2025-04-01-preview")] }
      "abc123" =
      "https://r.openai.azure.com/openai/v1/responses/abc123?api-version=2025-04-01-preview" := by
  refine ⟨?_, ?_, by decide⟩
  · intro name wire bp q s hb hq hs
    unfold Provider.urlForPath
    rw [show (String.mk (bp ++ '?' :: q)).data = bp ++ '?' :: q from rfl,
        splitOnceChar_append bp q hb]
    simp [hq, hs, joinAmp]
  · intro b q s hb
    unfold insertBeforeQuery
    rw [splitOnceChar_append b q hb]
    simp

/-- Witness for C7: the general `url_for_path` law instantiated at the
Azure base of the claim's example. -/
theorem url_builder_c7_witness :
    Provider.urlForPath
      { name := "azure", baseUrl := "https://r.example/openai/v1?api-version=1",
        queryParams := none, wire := .Responses } "/chat" =
      "https://r.example/openai/v1/chat?api-version=1" :=
  (url_builder_c7.1 "azure" .Responses "https://r.example/openai/v1".data
    "api-version=1".data "/chat".data (by decide) (by decide) (by decide)).trans rfl

/-- Lookup after insert: the inserted key maps to the new value, all
other keys are untouched. -/
theorem lookupA_insertA {α : Type} (m : List (String × α)) (k : String) (v : α)
    (k' : String) :
    lookupA (insertA m k v) k' = if k = k' then some v else lookupA m k' := by
  induction m with
  | nil =>
    by_cases h : k = k' <;> simp [insertA, lookupA, h]
  | cons kv rest ih =>
    obtain ⟨k0, w⟩ := kv
    by_cases h0 : k0 = k
    · subst h0
      by_cases h1 : k0 = k' <;> simp [insertA, lookupA, h1]
    · by_cases h1 : k0 = k'
      · subst h1
        have : ¬k = k0 := fun h => h0 h.symm
        simp [insertA, lookupA, h0, this]
      · simp [insertA, lookupA, h0, h1, ih]

/-- Refilling never lowers the level. -/
theorem refill_tokens_le (b : TokenBucket) (now : ℚ) :
    b.tokens ≤ (b.refill now).tokens := by
  unfold TokenBucket.refill
  dsimp only
  split
  · exact le_of_lt ‹_›
  · exact le_refl _

/-- Refilling preserves the capacity. -/
theorem refill_capacity (b : TokenBucket) (now : ℚ) :
    (b.refill now).capacity = b.capacity := rfl

theorem noBucketDebited_refl (m : List (String × TokenBucket)) :
    noBucketDebited m m :=
  fun _ b hb => ⟨b, hb, le_refl _, rfl⟩

theorem noBucketDebited_trans {m1 m2 m3 : List (String × TokenBucket)}
    (h12 : noBucketDebited m1 m2) (h23 : noBucketDebited m2 m3) :
    noBucketDebited m1 m3 := by
  intro k b hb
  obtain ⟨b', hb', hle, hcap⟩ := h12 k b hb
  obtain ⟨b'', hb'', hle', hcap'⟩ := h23 k b' hb'
  exact ⟨b'', hb'', le_trans hle hle', hcap'.trans hcap⟩

/-- Inserting a fresh key preserves every existing binding. -/
theorem noBucketDebited_insert_new (m : List (String × TokenBucket)) (k : String)
    (v : TokenBucket) (hnew : lookupA m k = none) :
    noBucketDebited m (insertA m k v) := by
  intro k' b hb
  refine ⟨b, ?_, le_refl _, rfl⟩
  rw [lookupA_insertA]
  by_cases hk : k = k'
  · subst hk
    rw [hnew] at hb
    cases hb
  · simp [hk, hb]

/-- The `available_tokens` debug read only refills. -/
theorem noBucketDebited_refresh (m : List (String × TokenBucket)) (key : String)
    (now : ℚ) : noBucketDebited m (refreshBucket m key now) := by
  intro k' b hb
  unfold refreshBucket
  cases hk : lookupA m key with
  | none => exact ⟨b, hb, le_refl _, rfl⟩
  | some b0 =>
    rw [lookupA_insertA]
    by_cases hkk : key = k'
    · subst hkk
      rw [hk] at hb
      injection hb with hbb
      subst hbb
      exact ⟨b0.refill now, by simp, refill_tokens_le b0 now, refill_capacity b0 now⟩
    · exact ⟨b, by simp [hkk, hb], le_refl _, rfl⟩

/-- `ensure*Bucket` preserves every existing binding. -/
theorem noBucketDebited_ensure (m : List (String × TokenBucket)) (k : String)
    (v : TokenBucket) :
    noBucketDebited m (if containsA m k then m else insertA m k v) := by
  by_cases hc : containsA m k
  · simp only [hc, if_pos]
    exact noBucketDebited_refl m
  · simp only [hc, if_neg, Bool.false_eq_true, not_false_eq_true]
    apply noBucketDebited_insert_new
    unfold containsA at hc
    cases h : lookupA m k with
    | none => rfl
    | some b => rw [h] at hc; simp at hc

/-- `ensureTokenBucket` only touches the token-bucket map. -/
theorem ensureTokenBucket_fields (s : AzureOpenAIRateLimiter) (k h : String) (now : ℚ) :
    (ensureTokenBucket s k h now).modelLimits = s.modelLimits ∧
    (ensureTokenBucket s k h now).requestBuckets = s.requestBuckets ∧
    (ensureTokenBucket s k h now).circuitBreaker = s.circuitBreaker ∧
    (ensureTokenBucket s k h now).adaptiveLimiter = s.adaptiveLimiter ∧
    (ensureTokenBucket s k h now).lastContext = s.lastContext := by
  unfold ensureTokenBucket
  split <;> exact ⟨rfl, rfl, rfl, rfl, rfl⟩

/-- `ensureRequestBucket` only touches the request-bucket map. -/
theorem ensureRequestBucket_fields (s : AzureOpenAIRateLimiter) (k h : String) (now : ℚ) :
    (ensureRequestBucket s k h now).modelLimits = s.modelLimits ∧
    (ensureRequestBucket s k h now).tokenBuckets = s.tokenBuckets ∧
    (ensureRequestBucket s k h now).circuitBreaker = s.circuitBreaker ∧
    (ensureRequestBucket s k h now).adaptiveLimiter = s.adaptiveLimiter ∧
    (ensureRequestBucket s k h now).lastContext = s.lastContext := by
  unfold ensureRequestBucket
  split <;> exact ⟨rfl, rfl, rfl, rfl, rfl⟩

/-- `ensureTokenBucket` never lowers an existing bucket. -/
theorem ensureTokenBucket_noDebit (s : AzureOpenAIRateLimiter) (k h : String) (now : ℚ) :
    noBucketDebited s.tokenBuckets (ensureTokenBucket s k h now).tokenBuckets := by
  unfold ensureTokenBucket
  split
  · exact noBucketDebited_refl _
  · next hc =>
    apply noBucketDebited_insert_new
    unfold containsA at hc
    cases hl : lookupA s.tokenBuckets k with
    | none => rfl
    | some b => rw [hl] at hc; simp at hc

/-- `ensureRequestBucket` never lowers an existing bucket. -/
theorem ensureRequestBucket_noDebit (s : AzureOpenAIRateLimiter) (k h : String) (now : ℚ) :
    noBucketDebited s.requestBuckets (ensureRequestBucket s k h now).requestBuckets := by
  unfold ensureRequestBucket
  split
  · exact noBucketDebited_refl _
  · next hc =>
    apply noBucketDebited_insert_new
    unfold containsA at hc
    cases hl : lookupA s.requestBuckets k with
    | none => rfl
    | some b => rw [hl] at hc; simp at hc

/-- C2 — counter-evidence: on a freshly-constructed limiter (default
configuration: adaptive rate 10, circuit closed), an `acquire` for
`gpt-5` with 25000 estimated tokens against the 20000 TPM capacity does
return the capacity error without debiting, but only *after* the
adaptive pacing sleep of `1/10` s — the call is not synchronous and a
sleep does occur before the error, contrary to the claim's "fails fast
before any sleep". -/
theorem acquire_precheck_c2_counterexample :
    (AzureOpenAIRateLimiter.mkDefault.acquire "gpt-5" 25000 0).1 =
      .error .capacityExceeded ∧
    (AzureOpenAIRateLimiter.mkDefault.acquire "gpt-5" 25000 0).2.2 =
      [.paceSleep (1 / 10)] :=
  ⟨rfl, by decide⟩

/-- C2 (amended) — whenever the estimate exceeds the model hint's
per-minute token capacity and the circuit breaker admits the call,
`acquire_for_deployment` returns the capacity error after the adaptive
pacing delay but before any bucket wait: the trace holds no bucket
sleep, and neither the token- nor the request-bucket map is debited
(existing buckets keep their capacity and at least their former level). -/
theorem acquire_precheck_c2 :
    ∀ (s : AzureOpenAIRateLimiter) (deployment modelHint : String) (est : Nat) (now : ℚ),
      ((lookupA s.modelLimits modelHint).getD ModelRateLimits.default).tokensPerMinute < est →
      (s.circuitBreaker.isAllowed now).1 = true →
      (s.acquireForDeployment deployment modelHint est now).1 = .error .capacityExceeded ∧
      noBucketSleep (s.acquireForDeployment deployment modelHint est now).2.2 ∧
      noBucketDebited s.tokenBuckets
        (s.acquireForDeployment deployment modelHint est now).2.1.tokenBuckets ∧
      noBucketDebited s.requestBuckets
        (s.acquireForDeployment deployment modelHint est now).2.1.requestBuckets := by
  intro s deployment modelHint est now hCap hAllowed
  obtain ⟨ml, tb, rb, cb0, al, lc⟩ := s
  dsimp only at hCap hAllowed ⊢
  unfold AzureOpenAIRateLimiter.acquireForDeployment
  dsimp only
  cases hia : cb0.isAllowed now with
  | mk allowed cb =>
  rw [hia] at hAllowed
  dsimp only at hAllowed
  subst hAllowed
  dsimp only
  set s1 : AzureOpenAIRateLimiter :=
    { modelLimits := ml, tokenBuckets := tb, requestBuckets := rb,
      circuitBreaker := cb, adaptiveLimiter := al,
      lastContext := some ⟨deployment, modelHint⟩ } with hs1
  set s2 := ensureTokenBucket s1 deployment modelHint now with hs2
  set s3 := ensureRequestBucket s2 deployment modelHint now with hs3
  have h3ml : s3.modelLimits = ml := by
    rw [hs3, (ensureRequestBucket_fields s2 deployment modelHint now).1,
        hs2, (ensureTokenBucket_fields s1 deployment modelHint now).1]
  have h3tb : noBucketDebited tb s3.tokenBuckets := by
    rw [hs3, (ensureRequestBucket_fields s2 deployment modelHint now).2.1]
    exact ensureTokenBucket_noDebit s1 deployment modelHint now
  have h3rb : noBucketDebited rb s3.requestBuckets := by
    have h := ensureRequestBucket_noDebit s2 deployment modelHint now
    rw [← hs3, hs2, (ensureTokenBucket_fields s1 deployment modelHint now).2.1] at h
    exact h
  rw [h3ml, if_pos hCap]
  refine ⟨rfl, ?_, ?_, ?_⟩
  · intro d hd
    dsimp only at hd
    split at hd <;> simp at hd
  · dsimp only
    exact noBucketDebited_trans h3tb (noBucketDebited_refresh _ _ _)
  · dsimp only
    exact noBucketDebited_trans h3rb (noBucketDebited_refresh _ _ _)

/-- Witness for C2 (amended): the default limiter rejecting a 25000
token estimate against gpt-5's 20000 TPM capacity, with no bucket wait. -/
theorem acquire_precheck_c2_witness :
    (AzureOpenAIRateLimiter.mkDefault.acquireForDeployment "dep1" "gpt-5" 25000 0).1 =
      .error .capacityExceeded ∧
    noBucketSleep
      (AzureOpenAIRateLimiter.mkDefault.acquireForDeployment "dep1" "gpt-5" 25000 0).2.2 :=
  ⟨(acquire_precheck_c2 AzureOpenAIRateLimiter.mkDefault "dep1" "gpt-5" 25000 0
      (by decide) (by decide)).1,
   (acquire_precheck_c2 AzureOpenAIRateLimiter.mkDefault "dep1" "gpt-5" 25000 0
      (by decide) (by decide)).2.1⟩

/-- The dynamic-resize recipe — fresh bucket of capacity `L`, then
`force_debit (L - min(avail, L))` — lands exactly on availability
`min(avail, L)`. -/
theorem resized_bucket (L avail now : ℚ) (hL : 0 ≤ L) (hav : 0 ≤ avail) :
    (TokenBucket.new L (L / 60) now).forceDebit (max (L - min avail L) 0) =
      { capacity := L, tokens := min avail L, refillRate := L / 60,
        lastRefill := now } := by
  unfold TokenBucket.new TokenBucket.forceDebit
  dsimp only
  split
  · next hle =>
    have h1 : L ≤ min avail L := by
      have h2 : L - min avail L ≤ 0 := le_trans (le_max_left _ _) hle
      linarith
    have h3 : min avail L = L := le_antisymm (min_le_right _ _) h1
    rw [h3]
  · next hgt =>
    have h1 : 0 ≤ L - min avail L := by
      have := min_le_right avail L
      linarith
    rw [max_eq_left h1]
    have h2 : 0 ≤ min avail L := le_min hav hL
    have h3 : max (L - (L - min avail L)) 0 = min avail L := by
      rw [sub_sub_cancel]
      exact max_eq_left h2
    rw [h3]

/-- C3 — dynamic bucket re-sizing from `x-ratelimit-limit-*` headers:
when the last-recorded context's bucket exists and the limit header
carries `L`, `update_from_response` replaces that bucket by one of
capacity `L`, refill rate `L/60` per second, and availability
`min(previous availability, L)` — for the token bucket under
`x-ratelimit-limit-tokens` and the request bucket under
`x-ratelimit-limit-requests`; and the claim's concrete scenario: seed
`gpt-5` at 20000 TPM, acquire 5000 tokens, receive
`x-ratelimit-limit-tokens: 10000` — the token bucket becomes capacity
10000, available `min(15000, 10000) = 10000`, refill rate `10000/60`. -/
theorem update_from_response_limits_c3 :
    (∀ (s : AzureOpenAIRateLimiter) (headers : Headers) (now : ℚ)
        (ctx : LimiterContext) (L : Nat) (old : TokenBucket),
      s.lastContext = some ctx →
      headerU32 headers "x-ratelimit-limit-tokens" = some L →
      lookupA s.tokenBuckets ctx.bucketKey = some old →
      0 ≤ old.tokens →
      lookupA (s.updateFromResponse headers now).tokenBuckets ctx.bucketKey =
        some { capacity := (L : ℚ), tokens := min (old.refill now).tokens (L : ℚ),
               refillRate := (L : ℚ) / 60, lastRefill := now }) ∧
    (∀ (s : AzureOpenAIRateLimiter) (headers : Headers) (now : ℚ)
        (ctx : LimiterContext) (L : Nat) (old : TokenBucket),
      s.lastContext = some ctx →
      headerU32 headers "x-ratelimit-limit-requests" = some L →
      lookupA s.requestBuckets ctx.bucketKey = some old →
      0 ≤ old.tokens →
      lookupA (s.updateFromResponse headers now).requestBuckets ctx.bucketKey =
        some { capacity := (L : ℚ), tokens := min (old.refill now).tokens (L : ℚ),
               refillRate := (L : ℚ) / 60, lastRefill := now }) ∧
    lookupA
      (((AzureOpenAIRateLimiter.mkDefault.acquire "gpt-5" 5000 0).2.1.updateFromResponse
        [("x-ratelimit-limit-tokens", .utf8 "10000")] 0).tokenBuckets) "gpt-5" =
      some { capacity := 10000, tokens := min 15000 10000, refillRate := 10000 / 60,
             lastRefill := 0 } := by
  refine ⟨?_, ?_, by decide⟩
  · intro s headers now ctx L old hctx ht hold h0
    obtain ⟨ml, tb, rb, cb0, al, lc⟩ := s
    dsimp only at hctx hold ⊢
    subst hctx
    unfold AzureOpenAIRateLimiter.updateFromResponse
    dsimp only
    rw [ht]
    simp only [Option.isSome_some, or_true, if_true]
    unfold AzureOpenAIRateLimiter.applyDynamicLimits
    dsimp only
    rw [hold]
    dsimp only
    have havail : 0 ≤ (old.refill now).tokens := le_trans h0 (refill_tokens_le old now)
    cases hr : headerU32 headers "x-ratelimit-limit-requests" with
    | none =>
      dsimp only
      rw [lookupA_insertA, if_pos rfl]
      simp only [TokenBucket.availableTokens]
      rw [resized_bucket (L : ℚ) (old.refill now).tokens now (Nat.cast_nonneg L) havail]
    | some rpm =>
      dsimp only
      cases hrb : lookupA rb ctx.bucketKey with
      | none =>
        dsimp only
        rw [lookupA_insertA, if_pos rfl]
        simp only [TokenBucket.availableTokens]
        rw [resized_bucket (L : ℚ) (old.refill now).tokens now (Nat.cast_nonneg L) havail]
      | some oldr =>
        dsimp only
        rw [lookupA_insertA, if_pos rfl]
        simp only [TokenBucket.availableTokens]
        rw [resized_bucket (L : ℚ) (old.refill now).tokens now (Nat.cast_nonneg L) havail]
  · intro s headers now ctx L old hctx ht hold h0
    obtain ⟨ml, tb, rb, cb0, al, lc⟩ := s
    dsimp only at hctx hold ⊢
    subst hctx
    unfold AzureOpenAIRateLimiter.updateFromResponse
    dsimp only
    rw [ht]
    simp only [Option.isSome_some, true_or, if_true]
    unfold AzureOpenAIRateLimiter.applyDynamicLimits
    dsimp only
    have havail : 0 ≤ (old.refill now).tokens := le_trans h0 (refill_tokens_le old now)
    cases htl : headerU32 headers "x-ratelimit-limit-tokens" with
    | none =>
      dsimp only
      rw [hold]
      dsimp only
      rw [lookupA_insertA, if_pos rfl]
      simp only [TokenBucket.availableTokens]
      rw [resized_bucket (L : ℚ) (old.refill now).tokens now (Nat.cast_nonneg L) havail]
    | some tpm =>
      dsimp only
      cases htb : lookupA tb ctx.bucketKey with
      | none =>
        dsimp only
        rw [hold]
        dsimp only
        rw [lookupA_insertA, if_pos rfl]
        simp only [TokenBucket.availableTokens]
        rw [resized_bucket (L : ℚ) (old.refill now).tokens now (Nat.cast_nonneg L) havail]
      | some oldt =>
        dsimp only
        rw [hold]
        dsimp only
        rw [lookupA_insertA, if_pos rfl]
        simp only [TokenBucket.availableTokens]
        rw [resized_bucket (L : ℚ) (old.refill now).tokens now (Nat.cast_nonneg L) havail]

/-- Witness for C3: the scenario state — after acquiring 5000 of
gpt-5's 20000 and receiving a 10000-token limit header, the stored
bucket is exactly the claim's resized bucket (via the general law). -/
theorem update_from_response_limits_c3_witness :
    lookupA
      (((AzureOpenAIRateLimiter.mkDefault.acquire "gpt-5" 5000 0).2.1.updateFromResponse
        [("x-ratelimit-limit-tokens", .utf8 "10000")] 0).tokenBuckets) "gpt-5" =
      some { capacity := 10000,
             tokens := min
               (((lookupA (AzureOpenAIRateLimiter.mkDefault.acquire "gpt-5" 5000 0).2.1.tokenBuckets
                  "gpt-5").getD (TokenBucket.new 0 0 0)).refill 0).tokens (10000 : ℚ),
             refillRate := (10000 : ℚ) / 60, lastRefill := 0 } :=
  update_from_response_limits_c3.1
    (AzureOpenAIRateLimiter.mkDefault.acquire "gpt-5" 5000 0).2.1
    [("x-ratelimit-limit-tokens", .utf8 "10000")] 0 ⟨"gpt-5", "gpt-5"⟩ 10000
    ((lookupA (AzureOpenAIRateLimiter.mkDefault.acquire "gpt-5" 5000 0).2.1.tokenBuckets
      "gpt-5").getD (TokenBucket.new 0 0 0))
    (by decide) (by decide) (by decide) (by decide)

end Theorems

end Codex
